import Mathlib

/-!
Verification of the servios HTTP-client convenience layer.

Each definition below is a shallow embedding of a function of the
repository (file and line references point into the TypeScript source).
JavaScript peculiarities that matter to the claims are modelled
explicitly: string truthiness (the empty string is falsy), optional
values as `Option`, and the text produced by template literals.
-/

namespace Servios

/-! ## URL composition: buildUrl (src/services/helpers.ts, lines 14-30) -/

/-- Semantics of JavaScript `Array.prototype.join('/')`. -/
def joinSlash : List String → String
  | [] => ""
  | [p] => p
  | p :: q :: ps => p ++ "/" ++ joinSlash (q :: ps)

/-- Semantics of `endpoint.replace(/^\/+/, '')`: the anchored pattern
removes every leading slash character and nothing else. -/
def stripLeadingSlashes (s : String) : String :=
  ⟨s.data.dropWhile (fun c => c == '/')⟩

/-- Shallow embedding of `buildUrl` (helpers.ts 14-30).  An absent
(`undefined`) argument is `none`; the truthiness tests `if (prefix)`,
`if (serviceName)`, `if (version)` and `if (cleanEndpoint)` skip both
absent and empty strings.  The optional fourth source parameter (the
part prepended in front of the service name) is called `pre` here. -/
def buildUrl (serviceName version : Option String) (endpoint : String)
    (pre : Option String := none) : String :=
  let parts : List String := []
  let parts := match pre with
    | some p => if p = "" then parts else parts ++ [p]
    | none => parts
  let parts := match serviceName with
    | some s => if s = "" then parts else parts ++ [s]
    | none => parts
  let parts := match version with
    | some v => if v = "" then parts else parts ++ [v]
    | none => parts
  let cleanEndpoint := stripLeadingSlashes endpoint
  let parts := if cleanEndpoint = "" then parts else parts ++ [cleanEndpoint]
  joinSlash parts

/-- The list of segments a truthy JavaScript string contributes to the
`parts` array: nothing when absent or empty, the string itself otherwise. -/
def jsOptPart : Option String → List String
  | some p => if p = "" then [] else [p]
  | none => []

/-- A character list contains no two adjacent slashes. -/
def noDoubleSlash : List Char → Bool
  | c :: d :: rest => !(c == '/' && d == '/') && noDoubleSlash (d :: rest)
  | _ => true

theorem jsOptPart_mem_ne_empty {o : Option String} {p : String}
    (h : p ∈ jsOptPart o) : p ≠ "" := by
  cases o with
  | none => simp [jsOptPart] at h
  | some q =>
    by_cases hq : q = "" <;> simp [jsOptPart, hq] at h
    subst h; exact hq

theorem data_ne_nil_of_ne_empty {p : String} (h : p ≠ "") : p.data ≠ [] := by
  intro hd
  apply h
  cases p with
  | mk l => cases hd; rfl

theorem noDoubleSlash_of_no_slash :
    ∀ cs : List Char, '/' ∉ cs → noDoubleSlash cs = true := by
  intro cs
  induction cs with
  | nil => intro _; rfl
  | cons c rest ih =>
    intro h
    cases rest with
    | nil => rfl
    | cons d rest2 =>
      have hc : c ≠ '/' := fun hc => h (by simp [hc])
      have : '/' ∉ d :: rest2 := fun hm => h (List.mem_cons_of_mem _ hm)
      simp [noDoubleSlash, ih this]
      exact Or.inl hc

theorem noDoubleSlash_append_slash :
    ∀ (l rest : List Char), '/' ∉ l → l ≠ [] → rest.head? ≠ some '/' →
      noDoubleSlash rest = true → noDoubleSlash (l ++ '/' :: rest) = true := by
  intro l
  induction l with
  | nil => intro rest _ hne _ _; exact absurd rfl hne
  | cons c l ih =>
    intro rest hns _ hhd hnd
    have hc : c ≠ '/' := fun hc => hns (by simp [hc])
    cases l with
    | nil =>
      have hslash : noDoubleSlash ('/' :: rest) = true := by
        cases rest with
        | nil => rfl
        | cons r rs =>
          have hr : r ≠ '/' := by
            intro hr
            exact hhd (by simp [hr])
          simp [noDoubleSlash, hnd]
          intro h
          exact absurd h hr
      simp [noDoubleSlash, hslash]
      intro h
      exact absurd h hc
    | cons c2 l2 =>
      have hns2 : '/' ∉ c2 :: l2 := fun hm => hns (List.mem_cons_of_mem _ hm)
      have := ih rest hns2 (by simp) hhd hnd
      simp only [List.cons_append] at this ⊢
      simp [noDoubleSlash, this]
      exact Or.inl hc

theorem joinSlash_good (p : String) (ps : List String)
    (h : ∀ q ∈ p :: ps, q.data ≠ [] ∧ '/' ∉ q.data) :
    (joinSlash (p :: ps)).data ≠ [] ∧
    (joinSlash (p :: ps)).data.head? ≠ some '/' ∧
    (joinSlash (p :: ps)).data.getLast? ≠ some '/' ∧
    noDoubleSlash (joinSlash (p :: ps)).data = true := by
  induction ps generalizing p with
  | nil =>
    obtain ⟨hne, hns⟩ := h p (by simp)
    refine ⟨hne, ?_, ?_, noDoubleSlash_of_no_slash _ hns⟩
    · intro hh
      have hh2 : p.data.head? = some '/' := hh
      exact hns (List.mem_of_mem_head? (by simp [Option.mem_def, hh2]))
    · intro hh
      have hh2 : p.data.getLast? = some '/' := hh
      obtain ⟨hn, he⟩ := List.mem_getLast?_eq_getLast (l := p.data)
        (x := '/') (by simp [Option.mem_def, hh2])
      exact hns (he ▸ List.getLast_mem hn)
  | cons q ps ih =>
    obtain ⟨hne, hns⟩ := h p (by simp)
    have hrest := ih q (fun r hr => h r (List.mem_cons_of_mem _ hr))
    obtain ⟨rne, rhd, rlast, rnd⟩ := hrest
    have hdata : (joinSlash (p :: q :: ps)).data
        = p.data ++ '/' :: (joinSlash (q :: ps)).data := by
      show (p ++ "/" ++ joinSlash (q :: ps)).data = _
      simp [String.data_append]
    refine ⟨?_, ?_, ?_, ?_⟩
    · rw [hdata]; simp
    · rw [hdata]
      cases hp : p.data with
      | nil => exact absurd hp hne
      | cons c cs =>
        simp only [List.cons_append, List.head?_cons]
        intro hh
        apply hns
        rw [hp]
        simp at hh
        simp [hh]
    · rw [hdata, List.getLast?_append_cons]
      cases hr : (joinSlash (q :: ps)).data with
      | nil => exact absurd hr rne
      | cons r rs =>
        rw [List.getLast?_cons_cons]
        rw [hr] at rlast
        exact rlast
    · rw [hdata]
      exact noDoubleSlash_append_slash _ _ hns hne rhd rnd

theorem buildUrl_eq_joinSlash (serviceName version pre : Option String)
    (endpoint : String) :
    buildUrl serviceName version endpoint pre
      = joinSlash (jsOptPart pre ++ jsOptPart serviceName ++ jsOptPart version
          ++ jsOptPart (some (stripLeadingSlashes endpoint))) := by
  simp only [buildUrl]
  cases pre <;> cases serviceName <;> cases version <;>
    simp only [jsOptPart] <;> split_ifs <;> simp_all

theorem mem_urlParts_ne_empty {pre s v : Option String} {e : String} {q : String}
    (h : q ∈ jsOptPart pre ++ jsOptPart s ++ jsOptPart v ++ jsOptPart (some e)) :
    q ≠ "" := by
  simp only [List.mem_append] at h
  rcases h with ((h | h) | h) | h <;> exact jsOptPart_mem_ne_empty h

/-- C4: buildUrl returns the slash-joined concatenation of, in order, the
prefix part, the service name, the version, and the endpoint stripped of its
leading slashes, omitting every absent or empty part.  Amended: the further
conclusion that the result has no leading slash, no trailing slash and no
empty (double-slash) segment holds when every included part is itself free
of slash characters; it fails for slash-carrying parts (see the
counterexample). -/
theorem buildUrl_spec (serviceName version pre : Option String) (endpoint : String)
    (hs : ∀ p ∈ jsOptPart pre ++ jsOptPart serviceName ++ jsOptPart version
        ++ jsOptPart (some (stripLeadingSlashes endpoint)), '/' ∉ p.data) :
    buildUrl serviceName version endpoint pre
      = joinSlash (jsOptPart pre ++ jsOptPart serviceName ++ jsOptPart version
          ++ jsOptPart (some (stripLeadingSlashes endpoint)))
    ∧ (buildUrl serviceName version endpoint pre).data.head? ≠ some '/'
    ∧ (buildUrl serviceName version endpoint pre).data.getLast? ≠ some '/'
    ∧ noDoubleSlash (buildUrl serviceName version endpoint pre).data = true := by
  have heq := buildUrl_eq_joinSlash serviceName version pre endpoint
  refine ⟨heq, ?_⟩
  rw [heq]
  cases hp : jsOptPart pre ++ jsOptPart serviceName ++ jsOptPart version
      ++ jsOptPart (some (stripLeadingSlashes endpoint)) with
  | nil => exact ⟨by simp [joinSlash], by simp [joinSlash], rfl⟩
  | cons a l =>
    have hgood := joinSlash_good a l (by
      intro q hq
      rw [← hp] at hq
      exact ⟨data_ne_nil_of_ne_empty (mem_urlParts_ne_empty hq), hs q hq⟩)
    exact ⟨hgood.2.1, hgood.2.2.1, hgood.2.2.2⟩

theorem buildUrl_spec_witness :
    (buildUrl (some "api") (some "v1") "/users" (some "gw")).data.getLast?
      ≠ some '/' :=
  (buildUrl_spec (some "api") (some "v1") (some "gw") "/users" (by decide)).2.2.1

/-- C4 counterexample: with serviceName and version absent and the endpoint
"a/", buildUrl returns "a/", whose final character is a slash, refuting the
claim that the result never contains a trailing slash. -/
theorem buildUrl_trailing_slash_cex :
    (buildUrl none none "a/" none).data.getLast? = some '/' := by decide

/-! ## Token storage (src/services/token.ts) -/

/-- Association-list semantics of a string key-value store: `setItem`,
`getItem`, `removeItem` on localStorage / sessionStorage, and
`CookieManager.set` / `get` / `remove` on the cookie jar. -/
def setKV (k v : String) (l : List (String × String)) : List (String × String) :=
  (k, v) :: l.filter (fun e => e.1 ≠ k)

def getKV (k : String) (l : List (String × String)) : Option String :=
  (l.find? (fun e => e.1 == k)).map (fun e => e.2)

def removeKV (k : String) (l : List (String × String)) : List (String × String) :=
  l.filter (fun e => e.1 ≠ k)

theorem getKV_setKV (k v : String) (l : List (String × String)) :
    getKV k (setKV k v l) = some v := by
  simp [getKV, setKV]

theorem getKV_removeKV (k : String) (l : List (String × String)) :
    getKV k (removeKV k l) = none := by
  have hfind : List.find? (fun e => e.1 == k)
      (List.filter (fun e => decide (e.1 ≠ k)) l) = none := by
    rw [List.find?_eq_none]
    intro x hx
    simp only [List.mem_filter, decide_not] at hx
    simpa using hx.2
  simp [getKV, removeKV, hfind]

inductive StorageKind
  | cookie
  | localS
  | sessionS
deriving DecidableEq, Repr

/-- The three browser-side stores the library can keep tokens in. -/
structure BrowserState where
  cookies : List (String × String)
  localS : List (String × String)
  sessionS : List (String × String)
deriving DecidableEq, Repr

/-- SingleTokenConfig (types.ts 13-17): every field optional. -/
structure SingleTokenCfg where
  tokenKey : Option String := none
  storage : Option StorageKind := none
deriving DecidableEq, Repr

/-- TokenConfig (types.ts 19-25): the access-token fields plus an optional
refresh-token sub-configuration. -/
structure TokenCfg extends SingleTokenCfg where
  refreshToken : Option SingleTokenCfg := none
deriving DecidableEq, Repr

/-- The initial globalTokenConfig (token.ts 24-35): cookie storage, keys
"accessToken" / "refreshToken".  Cookie attribute options are not modelled
because they never affect which value a key holds. -/
def globalTokenConfig : TokenCfg :=
  { tokenKey := some "accessToken"
    storage := some StorageKind.cookie
    refreshToken := some { tokenKey := some "refreshToken"
                           storage := some StorageKind.cookie } }

/-- JavaScript `x || d` on an optional string: absent and empty both fall
back to the default. -/
def jsOrDefault (x : Option String) (d : String) : String :=
  match x with
  | some s => if s = "" then d else s
  | none => d

/-- setTokenInStorage (token.ts 62-84). -/
def setTokenInStorage (token : String) (storage : StorageKind) (tokenKey : String)
    (st : BrowserState) : BrowserState :=
  match storage with
  | .localS => { st with localS := setKV tokenKey token st.localS }
  | .sessionS => { st with sessionS := setKV tokenKey token st.sessionS }
  | .cookie => { st with cookies := setKV tokenKey token st.cookies }

/-- getTokenFromStorage (token.ts 86-99).  For localStorage and
sessionStorage the source coerces a falsy result to null
(`getItem(tokenKey) || null`), so a stored empty string reads back as null;
the cookie branch returns `CookieManager.get(tokenKey)` unmodified. -/
def getTokenFromStorage (storage : StorageKind) (tokenKey : String)
    (st : BrowserState) : Option String :=
  match storage with
  | .localS =>
    match getKV tokenKey st.localS with
    | some v => if v = "" then none else some v
    | none => none
  | .sessionS =>
    match getKV tokenKey st.sessionS with
    | some v => if v = "" then none else some v
    | none => none
  | .cookie => getKV tokenKey st.cookies

/-- removeTokenFromStorage (token.ts 101-121). -/
def removeTokenFromStorage (storage : StorageKind) (tokenKey : String)
    (st : BrowserState) : BrowserState :=
  match storage with
  | .localS => { st with localS := removeKV tokenKey st.localS }
  | .sessionS => { st with sessionS := removeKV tokenKey st.sessionS }
  | .cookie => { st with cookies := removeKV tokenKey st.cookies }

/-- setToken (token.ts 123-128): `config || globalTokenConfig` (a config
object is always truthy), `tokenKey || 'accessToken'`,
`storage || 'cookie'`. -/
def setToken (token : String) (config : Option TokenCfg) (st : BrowserState) :
    BrowserState :=
  let tokenConfig := config.getD globalTokenConfig
  let tokenKey := jsOrDefault tokenConfig.tokenKey "accessToken"
  let storage := tokenConfig.storage.getD StorageKind.cookie
  setTokenInStorage token storage tokenKey st

/-- getToken (token.ts 130-135). -/
def getToken (config : Option TokenCfg) (st : BrowserState) : Option String :=
  let tokenConfig := config.getD globalTokenConfig
  let tokenKey := jsOrDefault tokenConfig.tokenKey "accessToken"
  let storage := tokenConfig.storage.getD StorageKind.cookie
  getTokenFromStorage storage tokenKey st

/-- removeToken (token.ts 137-142). -/
def removeToken (config : Option TokenCfg) (st : BrowserState) : BrowserState :=
  let tokenConfig := config.getD globalTokenConfig
  let tokenKey := jsOrDefault tokenConfig.tokenKey "accessToken"
  let storage := tokenConfig.storage.getD StorageKind.cookie
  removeTokenFromStorage storage tokenKey st

/-- The refresh-token configuration resolution shared by
setRefreshToken / getRefreshToken / removeRefreshToken (token.ts 145, 154,
163): `config?.refreshToken || globalTokenConfig.refreshToken`. -/
def resolveRefreshCfg (config : Option TokenCfg) : Option SingleTokenCfg :=
  match config with
  | some c =>
    match c.refreshToken with
    | some rc => some rc
    | none => globalTokenConfig.refreshToken
  | none => globalTokenConfig.refreshToken

/-- setRefreshToken (token.ts 144-151). -/
def setRefreshToken (token : String) (config : Option TokenCfg)
    (st : BrowserState) : BrowserState :=
  match resolveRefreshCfg config with
  | none => st
  | some rc =>
    setTokenInStorage token (rc.storage.getD StorageKind.cookie)
      (jsOrDefault rc.tokenKey "refreshToken") st

/-- getRefreshToken (token.ts 153-160). -/
def getRefreshToken (config : Option TokenCfg) (st : BrowserState) :
    Option String :=
  match resolveRefreshCfg config with
  | none => none
  | some rc =>
    getTokenFromStorage (rc.storage.getD StorageKind.cookie)
      (jsOrDefault rc.tokenKey "refreshToken") st

/-- removeRefreshToken (token.ts 162-169). -/
def removeRefreshToken (config : Option TokenCfg) (st : BrowserState) :
    BrowserState :=
  match resolveRefreshCfg config with
  | none => st
  | some rc =>
    removeTokenFromStorage (rc.storage.getD StorageKind.cookie)
      (jsOrDefault rc.tokenKey "refreshToken") st

theorem resolveRefreshCfg_isSome (cfg : Option TokenCfg) :
    resolveRefreshCfg cfg ≠ none := by
  cases cfg with
  | none => simp [resolveRefreshCfg, globalTokenConfig]
  | some c =>
    cases hc : c.refreshToken <;>
      simp [resolveRefreshCfg, globalTokenConfig, hc]

theorem get_set_inStorage (storage : StorageKind) (k t : String)
    (st : BrowserState) (h : t ≠ "") :
    getTokenFromStorage storage k (setTokenInStorage t storage k st) = some t := by
  cases storage <;>
    simp [getTokenFromStorage, setTokenInStorage, getKV_setKV, h]

theorem get_remove_inStorage (storage : StorageKind) (k : String)
    (st : BrowserState) :
    getTokenFromStorage storage k (removeTokenFromStorage storage k st) = none := by
  cases storage <;>
    simp [getTokenFromStorage, removeTokenFromStorage, getKV_removeKV]

/-- C8 (amended): for every token configuration and every NON-EMPTY token t,
setToken followed by getToken returns t, removeToken followed by getToken
returns null, and the same round-trips hold for the refresh-token
operations under the refresh part of the configuration.  For the empty
string the localStorage and sessionStorage read paths coerce the stored
value to null (see the counterexample), which is the only amendment. -/
theorem token_roundtrip (cfg : Option TokenCfg) (st : BrowserState)
    (t : String) (h : t ≠ "") :
    getToken cfg (setToken t cfg st) = some t
    ∧ getToken cfg (removeToken cfg st) = none
    ∧ getRefreshToken cfg (setRefreshToken t cfg st) = some t
    ∧ getRefreshToken cfg (removeRefreshToken cfg st) = none := by
  refine ⟨?_, ?_, ?_, ?_⟩
  · simp only [getToken, setToken]
    exact get_set_inStorage _ _ _ _ h
  · simp only [getToken, removeToken]
    exact get_remove_inStorage _ _ _
  · simp only [getRefreshToken, setRefreshToken]
    cases hrc : resolveRefreshCfg cfg with
    | none => exact absurd hrc (resolveRefreshCfg_isSome cfg)
    | some rc => exact get_set_inStorage _ _ _ _ h
  · simp only [getRefreshToken, removeRefreshToken]
    cases hrc : resolveRefreshCfg cfg with
    | none => rfl
    | some rc => exact get_remove_inStorage _ _ _

theorem token_roundtrip_witness :
    getToken (some { storage := some StorageKind.sessionS })
        (setToken "tok" (some { storage := some StorageKind.sessionS })
          ⟨[], [], []⟩) = some "tok" :=
  (token_roundtrip (some { storage := some StorageKind.sessionS })
    ⟨[], [], []⟩ "tok" (by decide)).1

/-- C8 counterexample: storing the empty string under a localStorage
configuration and reading it back yields null rather than the stored
string, because getTokenFromStorage coerces the result with a JavaScript
`|| null`.  This refutes the claim for the token t = "". -/
theorem token_roundtrip_cex :
    getToken (some { storage := some StorageKind.localS })
        (setToken "" (some { storage := some StorageKind.localS })
          ⟨[], [], []⟩) ≠ some "" := by
  decide

/-! ## Public-endpoint decorator metadata (src/services/decorators.ts) and
the request interceptor (src/services/helpers.ts, lines 149-159) -/

def getBoolMeta (k : String) (l : List (String × Bool)) : Option Bool :=
  (l.find? (fun e => e.1 == k)).map (fun e => e.2)

/-- The decorator metadata reachable from a service instance: the
class-level PUBLIC_CLASS_KEY flag (decorators.ts 2, 11) and the per-method
PUBLIC_METADATA_KEY object (decorators.ts 1, 16-20); instance and
prototype lookups coincide because @Public() writes to the prototype. -/
structure ProtoMeta where
  classPublic : Bool := false
  methodMeta : Option (List (String × Bool)) := none
deriving DecidableEq, Repr

/-- isPublicMethod (decorators.ts 27-39): a class marked public makes
every method public; otherwise `metadata?.[methodName] === true`. -/
def isPublicMethod (meta : ProtoMeta) (methodName : String) : Bool :=
  if meta.classPublic then true
  else
    match meta.methodMeta with
    | some md =>
      match getBoolMeta methodName md with
      | some b => b
      | none => false
    | none => false

/-- Request headers as an association list of header names to values. -/
abbrev HeadersL := List (String × String)

/-- The slice of an axios request config the request interceptor reads and
writes (CustomAxiosRequestConfig, helpers.ts 9-12): the custom isPublic
flag and the headers object, which may be absent. -/
structure ReqCfg where
  isPublic : Bool := false
  headers : Option HeadersL := none
deriving DecidableEq, Repr

/-- JavaScript template literal `Bearer ${token}` for a string token. -/
def bearer (token : String) : String := "Bearer " ++ token

/-- The request interceptor body (helpers.ts 149-159) as a function of the
value getAccessToken() returned: a public config is returned at once;
otherwise the guard `if (token && config.headers)` requires a truthy
(non-null, non-empty) token AND a present headers object before writing
the Authorization header. -/
def requestInterceptor (token : Option String) (config : ReqCfg) : ReqCfg :=
  if config.isPublic then config
  else
    match token, config.headers with
    | some t, some h =>
      if t = "" then config
      else { config with headers := some (setKV "Authorization" (bearer t) h) }
    | _, _ => config

/-- finalIsPublic (types.ts 212-213): the request-level isPublic flag or
the @Public() decorator lookup for the calling method. -/
def finalIsPublic (isPublicFlag : Bool) (meta : ProtoMeta)
    (methodName : String) : Bool :=
  isPublicFlag || isPublicMethod meta methodName

/-- C5 (amended): on a non-public service, a request config whose isPublic
flag is set (directly, or through the @Public() class or method decorator
feeding finalIsPublic) passes through the request interceptor unchanged
and no Authorization header is added; a non-public config receives
Authorization "Bearer <token>" exactly when getAccessToken() returned a
NON-EMPTY token and the config carries a headers object, and is returned
unchanged when the token is null or empty or the headers object is absent.
Amended: the original claim promised the header for every non-null token,
but the source guard `if (token && config.headers)` also requires the
token to be non-empty (JavaScript truthiness) and the headers object to
exist; see the counterexample. -/
theorem requestInterceptor_spec (token : Option String) (config : ReqCfg)
    (meta : ProtoMeta) (name : String) :
    (config.isPublic = true → requestInterceptor token config = config)
    ∧ (∀ t h, config.isPublic = false → token = some t → t ≠ "" →
        config.headers = some h →
        requestInterceptor token config
          = { config with headers := some (setKV "Authorization" (bearer t) h) })
    ∧ (config.isPublic = false → token = none →
        requestInterceptor token config = config)
    ∧ (∀ t, config.isPublic = false → token = some t →
        (t = "" ∨ config.headers = none) →
        requestInterceptor token config = config)
    ∧ (meta.classPublic = true → finalIsPublic false meta name = true)
    ∧ (∀ md, meta.methodMeta = some md → getBoolMeta name md = some true →
        finalIsPublic false meta name = true)
    ∧ finalIsPublic true meta name = true := by
  refine ⟨?_, ?_, ?_, ?_, ?_, ?_, ?_⟩
  · intro hp; simp [requestInterceptor, hp]
  · intro t h hp ht hne hh
    simp [requestInterceptor, hp, ht, hh, hne]
  · intro hp ht; simp [requestInterceptor, hp, ht]
  · intro t hp ht hor
    rcases hor with he | hh
    · cases hh : config.headers with
      | none => simp [requestInterceptor, hp, ht, hh]
      | some h => simp [requestInterceptor, hp, ht, hh, he]
    · simp [requestInterceptor, hp, ht, hh]
  · intro hc; simp [finalIsPublic, isPublicMethod, hc]
  · intro md hmd hlook
    simp [finalIsPublic, isPublicMethod, hmd, hlook]
  · simp [finalIsPublic]

theorem requestInterceptor_spec_witness :
    requestInterceptor (some "tok") { isPublic := false, headers := some [] }
      = { isPublic := false,
          headers := some (setKV "Authorization" (bearer "tok") []) } :=
  ((requestInterceptor_spec (some "tok")
      { isPublic := false, headers := some [] } {} "m").2.1)
    "tok" [] rfl rfl (by decide) rfl

/-- C5 counterexample: getAccessToken() returning the empty string is a
non-null token, yet the interceptor leaves the config unchanged (no
Authorization entry is written), because the guard tests JavaScript
truthiness rather than non-nullness. -/
theorem requestInterceptor_empty_token_cex :
    ¬ ((requestInterceptor (some "") { isPublic := false, headers := some [] }).headers
        = some (setKV "Authorization" (bearer "") [])) := by
  decide

/-! ## Error transformation, mocking and dispatch
(src/services/types.ts, BaseService lines 111-258;
src/services/helpers.ts, registerMock lines 74-98) -/

/-- An axios response as the error path sees it: a status code and a
possibly nullish body (`none` models both null and undefined). -/
structure AxiosResp (β : Type) where
  status : Nat
  data : Option β
deriving DecidableEq, Repr

/-- The slice of AxiosError that transformError reads (types.ts 149). -/
structure AxiosErr (β : Type) where
  response : Option (AxiosResp β)
  message : String
deriving DecidableEq, Repr

/-- What the default transformError produces: the response body, or the
fallback object `{ message: ... }`. -/
inductive ErrPayload (β : Type)
  | body (d : β)
  | msgObj (message : String)
deriving DecidableEq, Repr

/-- The default transformError (types.ts 149):
`err.response?.data ?? { message: err.message || 'Network error' }`.
The optional chain yields undefined for a missing response; `??` falls
through on a nullish body; `||` replaces an empty message. -/
def transformErrorDefault {β : Type} (err : AxiosErr β) : ErrPayload β :=
  match err.response with
  | some r =>
    match r.data with
    | some d => ErrPayload.body d
    | none =>
      ErrPayload.msgObj (if err.message = "" then "Network error" else err.message)
  | none =>
    ErrPayload.msgObj (if err.message = "" then "Network error" else err.message)

inductive HttpMethod
  | get
  | post
  | put
  | patch
  | delete
deriving DecidableEq, Repr

/-- A handler registered on the axios-mock-adapter by
`mock.onX(url).reply(...)`.  Only the plain-data branch of the reply
callback (helpers.ts 95) is modelled: the claims never register the
function-valued mock of helpers.ts 91-94. -/
structure MockHandler (α : Type) where
  method : HttpMethod
  url : String
  status : Nat
  data : α
deriving DecidableEq, Repr

/-- axios-mock-adapter's addHandler for a non-once handler: when a
handler with the same matchers (method and URL) already exists, the new
handler replaces it in place; otherwise it is appended. -/
def addHandler {α : Type} : List (MockHandler α) → MockHandler α →
    List (MockHandler α)
  | [], h2 => [h2]
  | h :: hs, h2 =>
    if h.method == h2.method && h.url == h2.url then h2 :: hs
    else h :: addHandler hs h2

/-- registerMock (helpers.ts 74-98) on a present adapter:
`mock.onX(url).reply(...)` installs a handler replying (status, data) for
the method and URL; status defaults to 200 (helpers.ts 79).  A repeated
registration for the same method and URL replaces the previous handler. -/
def registerMock {α : Type} (handlers : List (MockHandler α))
    (method : HttpMethod) (url : String) (data : α) (status : Nat := 200) :
    List (MockHandler α) :=
  addHandler handlers ⟨method, url, status, data⟩

/-- axios-mock-adapter matching: the first handler registered for the
method and URL answers; with onNoMatch 'passthrough' (helpers.ts 103) an
unmatched request goes to the network. -/
def findHandler {α : Type} (handlers : List (MockHandler α))
    (method : HttpMethod) (url : String) : Option (MockHandler α) :=
  handlers.find? (fun h => h.method == method && h.url == url)

/-- The outcome the awaited axios call settles with: a (status, body)
response or an AxiosError. -/
inductive NetOutcome (α β : Type)
  | ok (status : Nat) (data : α)
  | fail (e : AxiosErr β)
deriving DecidableEq, Repr

/-- The settled value of BaseService.request: the response data, or the
transformed error it throws. -/
inductive ReqResult (γ α : Type)
  | ok (v : α)
  | thrown (e : γ)
deriving DecidableEq, Repr

/-- The BaseService options the request path reads, with the constructor
defaults of types.ts 142-148. -/
structure SvcOpts where
  serviceName : String := "api"
  version : String := "v1"
  useMock : Bool := false
deriving DecidableEq, Repr

/-- RequestConfig (types.ts 27-37), reduced to the fields the dispatch
path reads; `mockStatus := none` models an absent field, defaulted to 200
at the destructuring (types.ts 197). -/
structure ReqSpec (α : Type) where
  endpoint : String
  version : Option String := none
  isMock : Bool := false
  mockData : Option α := none
  mockStatus : Option Nat := none
deriving DecidableEq, Repr

/-- The URL request builds (types.ts 203). -/
def builtUrl {α : Type} (opts : SvcOpts) (cfg : ReqSpec α) : String :=
  buildUrl (some opts.serviceName) (some (cfg.version.getD opts.version))
    cfg.endpoint

/-- The mock-adapter state after the registration step of request
(types.ts 205-210): when isMock or useMock holds and mockData is present,
an adapter is created if absent and a handler for the built URL is
registered; otherwise the adapter state is untouched. -/
def mockAfterRegistration {α : Type} (opts : SvcOpts)
    (mock0 : Option (List (MockHandler α))) (method : HttpMethod)
    (cfg : ReqSpec α) : Option (List (MockHandler α)) :=
  if cfg.isMock || opts.useMock then
    match cfg.mockData with
    | some d =>
      some (registerMock (mock0.getD []) method (builtUrl opts cfg) d
        (cfg.mockStatus.getD 200))
    | none => mock0
  else mock0

/-- Dispatch through the adapter: a matching handler answers; otherwise
(or with no adapter) the network outcome stands. -/
def dispatchOutcome {α β : Type} (mock : Option (List (MockHandler α)))
    (method : HttpMethod) (url : String) (network : NetOutcome α β) :
    NetOutcome α β :=
  match mock with
  | some handlers =>
    match findHandler handlers method url with
    | some h => NetOutcome.ok h.status h.data
    | none => network
  | none => network

/-- BaseService.request (types.ts 189-233) restricted to what claims C6
and C7 observe: URL building, mock registration, dispatch and error
transformation.  `network` is the outcome the real network would produce
and `transform` the configured transformError.  The includeHeaders merge
(types.ts 227-229, off by default) and the params/data forwarding do not
affect these claims and are not modelled. -/
def request {α β γ : Type} (opts : SvcOpts) (transform : AxiosErr β → γ)
    (mock0 : Option (List (MockHandler α))) (method : HttpMethod)
    (cfg : ReqSpec α) (network : NetOutcome α β) :
    Option (List (MockHandler α)) × ReqResult γ α :=
  let mock1 := mockAfterRegistration opts mock0 method cfg
  match dispatchOutcome mock1 method (builtUrl opts cfg) network with
  | NetOutcome.ok _ d => (mock1, ReqResult.ok d)
  | NetOutcome.fail e => (mock1, ReqResult.thrown (transform e))

/-- C6: whenever the dispatched request fails with error e, request throws
transform e for the configured transformError; and the default
transformError yields the response body when one exists, otherwise an
object carrying the error message, or 'Network error' when that message
is empty. -/
theorem request_error_spec {α β γ : Type} (opts : SvcOpts)
    (transform : AxiosErr β → γ) (mock0 : Option (List (MockHandler α)))
    (method : HttpMethod) (cfg : ReqSpec α) (network : NetOutcome α β)
    (e : AxiosErr β)
    (hfail : dispatchOutcome (mockAfterRegistration opts mock0 method cfg)
        method (builtUrl opts cfg) network = NetOutcome.fail e) :
    (request opts transform mock0 method cfg network).2
      = ReqResult.thrown (transform e)
    ∧ (∀ r d, e.response = some r → r.data = some d →
        transformErrorDefault e = ErrPayload.body d)
    ∧ (e.response.bind AxiosResp.data = none → e.message ≠ "" →
        transformErrorDefault e = ErrPayload.msgObj e.message)
    ∧ (e.response.bind AxiosResp.data = none → e.message = "" →
        transformErrorDefault e = ErrPayload.msgObj "Network error") := by
  refine ⟨?_, ?_, ?_, ?_⟩
  · simp [request, hfail]
  · intro r d hr hd
    simp [transformErrorDefault, hr, hd]
  · intro hnb hm
    cases hr : e.response with
    | none => simp [transformErrorDefault, hr, hm]
    | some r =>
      rw [hr] at hnb
      simp at hnb
      simp [transformErrorDefault, hr, hnb, hm]
  · intro hnb hm
    cases hr : e.response with
    | none => simp [transformErrorDefault, hr, hm]
    | some r =>
      rw [hr] at hnb
      simp at hnb
      simp [transformErrorDefault, hr, hnb, hm]

theorem request_error_spec_witness :
    (request {} (transformErrorDefault (β := Nat)) (none (α := List (MockHandler Nat)))
        HttpMethod.get { endpoint := "e" }
        (NetOutcome.fail ⟨some ⟨500, some 42⟩, "boom"⟩)).2
      = ReqResult.thrown (ErrPayload.body 42) :=
  (request_error_spec {} transformErrorDefault none HttpMethod.get
    { endpoint := "e" } (NetOutcome.fail ⟨some ⟨500, some 42⟩, "boom"⟩)
    ⟨some ⟨500, some 42⟩, "boom"⟩ (by decide)).1

/-- A JavaScript value used as a rejection reason, reduced to what the
queue-processing code observes: an identity and its truthiness
(`if (error)`).  A promise may reject with a falsy reason such as
undefined. -/
structure ErrVal where
  id : Nat
  truthy : Bool
deriving DecidableEq, Repr

/-- The per-request slice of CustomAxiosRequestConfig the response
interceptor manipulates (helpers.ts 9-12): an identity and the `_retry`
marker, called retryMark here. -/
structure ICfg where
  id : Nat
  retryMark : Bool := false
deriving DecidableEq, Repr

/-- The options setupInterceptors closes over (helpers.ts 139-146),
reduced to what the response error handler's control flow inspects:
the retryable status codes, whether a refreshToken handler was configured
and whether a setRefreshToken callback was configured. -/
structure IOpts where
  retryOnStatusCodes : List Nat
  hasRefreshToken : Bool
  hasSetRefreshToken : Bool
deriving DecidableEq, Repr

/-- InterceptorState (helpers.ts 128-135) plus the ghost field pending,
counting refreshToken() calls started and not yet settled; pending is not
program state and exists only to state claim C1. -/
structure IState where
  isRefreshing : Bool := false
  failedQueue : List ICfg := []
  pending : Nat := 0
deriving DecidableEq, Repr

/-- The externally observable actions of one interceptor step. -/
inductive Effect
  | refreshCall
  | setAccess (t : String)
  | setRefresh (t : String)
  | dispatched (id : Nat) (auth : String)
  | rejectedQ (id : Nat) (e : ErrVal)
  | rejectedNow (id : Nat)
  | logoutCall
deriving DecidableEq, Repr

/-- The events the response interceptor reacts to: a response error
entering the handler (helpers.ts 163) with its config and optional
response status, and the settling of the in-flight refreshToken() promise,
fulfilled (helpers.ts 181-188) or rejected (helpers.ts 189-193). -/
inductive Event
  | fail (c : ICfg) (status : Option Nat)
  | refreshOk (accessToken : String) (refreshToken : Option String)
  | refreshErr (e : ErrVal)
deriving DecidableEq, Repr

/-- shouldRetry (helpers.ts 167-170):
`error.response?.status && retryOnStatusCodes.includes(status) &&
!config._retry`.  A missing response, a zero (falsy) status, an unlisted
status or an already-retried config all make it false. -/
def shouldRetry (o : IOpts) (c : ICfg) (status : Option Nat) : Bool :=
  match status with
  | some s => (s != 0) && o.retryOnStatusCodes.contains s && !c.retryMark
  | none => false

/-- JavaScript `Bearer ${token}` where token may be undefined: the catch
branch of the refresh call invokes processQueueInternal without a token,
and a template literal prints undefined as the text "undefined". -/
def bearerOpt (token : Option String) : String :=
  match token with
  | some t => "Bearer " ++ t
  | none => "Bearer undefined"

/-- processQueueInternal (helpers.ts 107-126): each queued request is
rejected when the error argument is truthy (null, passed by the success
path, is falsy) and otherwise re-dispatched with its Authorization header
set to `Bearer ${token}`. -/
def processQueueInternal (queue : List ICfg) (error : Option ErrVal)
    (token : Option String) : List Effect :=
  queue.map (fun c =>
    match error with
    | some e =>
      if e.truthy then Effect.rejectedQ c.id e
      else Effect.dispatched c.id (bearerOpt token)
    | none => Effect.dispatched c.id (bearerOpt token))

/-- One transition of the response interceptor (helpers.ts 161-200): the
error handler for a failing response, and the two continuations of the
refreshToken() promise (including the `finally` that clears isRefreshing).
Returns the new state and the effects in program order. -/
def stepE (o : IOpts) (st : IState) : Event → IState × List Effect
  | Event.fail c status =>
    if shouldRetry o c status && o.hasRefreshToken then
      let c2 : ICfg := { c with retryMark := true }
      let st2 := { st with failedQueue := st.failedQueue ++ [c2] }
      if !st.isRefreshing then
        ({ st2 with isRefreshing := true, pending := st.pending + 1 },
          [Effect.refreshCall])
      else (st2, [])
    else (st, [Effect.rejectedNow c.id])
  | Event.refreshOk accessToken refreshToken =>
    let storeRefresh : List Effect :=
      match refreshToken with
      | some t =>
        if (t != "") && o.hasSetRefreshToken then [Effect.setRefresh t] else []
      | none => []
    ({ st with
        failedQueue := []
        isRefreshing := false
        pending := st.pending - 1 },
      Effect.setAccess accessToken :: storeRefresh
        ++ processQueueInternal st.failedQueue none (some accessToken))
  | Event.refreshErr e =>
    ({ st with
        failedQueue := []
        isRefreshing := false
        pending := st.pending - 1 },
      processQueueInternal st.failedQueue (some e) none ++ [Effect.logoutCall])

/-- A settlement event is the continuation of the single refreshToken()
call in flight, so in a real execution it can only occur while
isRefreshing holds. -/
def validSteps (o : IOpts) : IState → List Event → Bool
  | _, [] => true
  | st, e :: es =>
    (match e with
     | Event.fail _ _ => true
     | Event.refreshOk _ _ => st.isRefreshing
     | Event.refreshErr _ => st.isRefreshing)
    && validSteps o (stepE o st e).1 es

def runTrace (o : IOpts) (st : IState) : List Event → IState
  | [] => st
  | e :: es => runTrace o (stepE o st e).1 es

/-- The ghost invariant: in-flight refreshToken() calls are exactly what
the isRefreshing flag records. -/
def InvI (st : IState) : Prop :=
  st.pending = (if st.isRefreshing then 1 else 0)

theorem stepE_preserves_inv (o : IOpts) (st : IState) (e : Event)
    (hInv : InvI st)
    (hval : match e with
      | Event.fail _ _ => True
      | _ => st.isRefreshing = true) :
    InvI (stepE o st e).1 := by
  cases e with
  | fail c status =>
    by_cases h1 : (shouldRetry o c status && o.hasRefreshToken) = true
    · by_cases h2 : st.isRefreshing = true
      · simp [stepE, h1, h2, InvI] at *
        simpa [h2] using hInv
      · simp only [Bool.not_eq_true] at h2
        simp [stepE, h1, h2, InvI] at *
        simpa [h2] using hInv
    · simp [stepE, h1]
      exact hInv
  | refreshOk a rt =>
    simp only at hval
    simp [stepE, InvI] at *
    simp [hval] at hInv
    simp [hInv]
  | refreshErr e =>
    simp only at hval
    simp [stepE, InvI] at *
    simp [hval] at hInv
    simp [hInv]

theorem runTrace_inv (o : IOpts) :
    ∀ (es : List Event) (st : IState), InvI st → validSteps o st es = true →
      InvI (runTrace o st es) := by
  intro es
  induction es with
  | nil => intro st h _; exact h
  | cons e es ih =>
    intro st hInv hval
    simp only [validSteps, Bool.and_eq_true] at hval
    apply ih
    · apply stepE_preserves_inv o st e hInv
      cases e with
      | fail c status => trivial
      | refreshOk a rt => exact hval.1
      | refreshErr e2 => exact hval.1
    · exact hval.2

theorem validSteps_take (o : IOpts) :
    ∀ (es : List Event) (st : IState) (n : Nat),
      validSteps o st es = true → validSteps o st (es.take n) = true := by
  intro es
  induction es with
  | nil => intro st n _; simp [validSteps]
  | cons e es ih =>
    intro st n hval
    cases n with
    | zero => rfl
    | succ m =>
      simp only [List.take_succ_cons, validSteps, Bool.and_eq_true] at *
      exact ⟨hval.1, ih _ m hval.2⟩

/-- C1: along every valid execution (settlements only occur while a
refresh is in flight) from a state whose ghost count matches its flag, at
most one refreshToken() call is ever in flight; a fresh failing request
whose truthy status is in retryOnStatusCodes is appended to failedQueue
with its _retry marker set; refreshToken() is invoked at such a step
exactly when isRefreshing was false, that step setting the flag; and no
failing-response step ever clears the flag — only a settlement does — so
one refresh serves each batch of queued requests. -/
theorem refresh_single_flight (o : IOpts) (st : IState) (es : List Event)
    (hrt : o.hasRefreshToken = true) (hInv : InvI st)
    (hval : validSteps o st es = true) :
    (∀ n, (runTrace o st (es.take n)).pending ≤ 1)
    ∧ (∀ (st2 : IState) (c : ICfg) (s : Nat), c.retryMark = false → s ≠ 0 →
        s ∈ o.retryOnStatusCodes →
        (stepE o st2 (Event.fail c (some s))).1.failedQueue
          = st2.failedQueue ++ [{ c with retryMark := true }]
        ∧ (Effect.refreshCall ∈ (stepE o st2 (Event.fail c (some s))).2
            ↔ st2.isRefreshing = false)
        ∧ (st2.isRefreshing = false →
            (stepE o st2 (Event.fail c (some s))).1.isRefreshing = true))
    ∧ (∀ (st2 : IState) (c : ICfg) (s2 : Option Nat),
        st2.isRefreshing = true →
        (stepE o st2 (Event.fail c s2)).1.isRefreshing = true) := by
  refine ⟨?_, ?_, ?_⟩
  · intro n
    have hv := validSteps_take o es st n hval
    have := runTrace_inv o (es.take n) st hInv hv
    rw [InvI] at this
    rw [this]
    split <;> simp
  · intro st2 c s hmark hs0 hmem
    have hsr : shouldRetry o c (some s) = true := by
      simp [shouldRetry, hmark, List.contains_iff_exists_mem_beq, hs0]
      exact hmem
    by_cases h2 : st2.isRefreshing = true
    · refine ⟨by simp [stepE, hsr, hrt, h2], by simp [stepE, hsr, hrt, h2], ?_⟩
      intro hfalse
      rw [hfalse] at h2
      exact absurd h2 (by simp)
    · simp only [Bool.not_eq_true] at h2
      exact ⟨by simp [stepE, hsr, hrt, h2], by simp [stepE, hsr, hrt, h2],
        fun _ => by simp [stepE, hsr, hrt, h2]⟩
  · intro st2 c s2 h2
    by_cases h1 : (shouldRetry o c s2 && o.hasRefreshToken) = true
    · simp [stepE, h1, h2]
    · simp [stepE, h1, h2]

theorem refresh_single_flight_witness :
    (runTrace ⟨[401], true, true⟩ {}
        ([Event.fail ⟨1, false⟩ (some 401), Event.fail ⟨2, false⟩ (some 401),
          Event.refreshOk "t2" none].take 2)).pending ≤ 1 :=
  (refresh_single_flight ⟨[401], true, true⟩ {}
    [Event.fail ⟨1, false⟩ (some 401), Event.fail ⟨2, false⟩ (some 401),
      Event.refreshOk "t2" none] rfl rfl (by decide)).1 2

/-- C2 (amended): when the in-flight refresh resolves, the interceptor
first stores the access token, then — amendment: only when the returned
refresh token is NON-EMPTY and a setRefreshToken callback is configured,
because the guard `if (refreshToken && options.setRefreshToken)` skips the
falsy empty string (see the counterexample) — stores the refresh token,
then re-dispatches every queued request in order with its Authorization
header set to "Bearer <accessToken>", and finally empties the queue and
clears isRefreshing. -/
theorem refresh_success_replay (o : IOpts) (st : IState) (a : String)
    (rt : Option String) (href : st.isRefreshing = true) :
    stepE o st (Event.refreshOk a rt)
      = ({ st with
            failedQueue := []
            isRefreshing := false
            pending := st.pending - 1 },
        Effect.setAccess a
          :: (match rt with
              | some t =>
                if (t != "") && o.hasSetRefreshToken
                then [Effect.setRefresh t] else []
              | none => [])
          ++ st.failedQueue.map
              (fun c => Effect.dispatched c.id ("Bearer " ++ a))) := by
  simp [stepE, processQueueInternal, bearerOpt]

theorem refresh_success_replay_witness :
    stepE ⟨[401], true, true⟩ ⟨true, [⟨1, true⟩], 1⟩
        (Event.refreshOk "a2" (some "r2"))
      = (⟨false, [], 0⟩,
        [Effect.setAccess "a2", Effect.setRefresh "r2",
          Effect.dispatched 1 ("Bearer " ++ "a2")]) := by
  rw [refresh_success_replay ⟨[401], true, true⟩ ⟨true, [⟨1, true⟩], 1⟩
    "a2" (some "r2") rfl]
  decide

/-- C2 counterexample: a refresh that resolves with accessToken "a2" and a
provided but empty refreshToken "" while a setRefreshToken callback is
configured produces no setRefreshToken effect — the truthiness guard skips
it — refuting the claim that the new refresh token is stored whenever both
are provided. -/
theorem refresh_success_cex :
    Effect.setRefresh ""
      ∉ (stepE ⟨[401], true, true⟩ ⟨true, [⟨1, true⟩], 1⟩
          (Event.refreshOk "a2" (some ""))).2 := by
  decide

/-- C3 (amended): when the refresh handler rejects with a TRUTHY error,
every queued request is rejected with that error in order, none is
re-dispatched, the queue is emptied, logout() is called and isRefreshing
is cleared.  Amendment: processQueueInternal distinguishes failure from
success by the truthiness of the error value, so a falsy rejection reason
(such as undefined) re-dispatches the queue instead of rejecting it; see
the counterexample. -/
theorem refresh_failure_rejects (o : IOpts) (st : IState) (e : ErrVal)
    (href : st.isRefreshing = true) (htr : e.truthy = true) :
    stepE o st (Event.refreshErr e)
      = ({ st with
            failedQueue := []
            isRefreshing := false
            pending := st.pending - 1 },
        st.failedQueue.map (fun c => Effect.rejectedQ c.id e)
          ++ [Effect.logoutCall])
    ∧ ∀ (i : Nat) (auth : String),
        Effect.dispatched i auth ∉ (stepE o st (Event.refreshErr e)).2 := by
  constructor
  · simp [stepE, processQueueInternal, htr]
  · intro i auth hmem
    simp only [stepE, processQueueInternal, htr, if_pos, List.mem_append,
      List.mem_map] at hmem
    rcases hmem with ⟨c, _, hc⟩ | hl
    · simp [htr] at hc
    · simp at hl

theorem refresh_failure_rejects_witness :
    stepE ⟨[401], true, true⟩ ⟨true, [⟨1, true⟩, ⟨2, true⟩], 1⟩
        (Event.refreshErr ⟨9, true⟩)
      = (⟨false, [], 0⟩,
        [Effect.rejectedQ 1 ⟨9, true⟩, Effect.rejectedQ 2 ⟨9, true⟩,
          Effect.logoutCall]) := by
  rw [(refresh_failure_rejects ⟨[401], true, true⟩
    ⟨true, [⟨1, true⟩, ⟨2, true⟩], 1⟩ ⟨9, true⟩ rfl rfl).1]
  decide

/-- C3 counterexample: when the refresh promise rejects with a falsy
reason (JavaScript undefined, modelled as truthy = false), the queued
request is NOT rejected: processQueueInternal takes its success branch and
re-dispatches it with the header "Bearer undefined", refuting the claim
that no queued request is re-dispatched on refresh failure. -/
theorem refresh_failure_cex :
    Effect.dispatched 1 "Bearer undefined"
      ∈ (stepE ⟨[401], true, true⟩ ⟨true, [⟨1, true⟩], 1⟩
          (Event.refreshErr ⟨0, false⟩)).2 := by
  decide

/-- C9: a config whose _retry marker is already set is rejected
immediately for every status in retryOnStatusCodes — the state (queue and
flag) is untouched, no request is queued and no refresh is invoked; and
every config the interceptor ever appends to the queue carries the _retry
marker, so a config passes through the refresh path at most once. -/
theorem retry_once (o : IOpts) (st : IState) (c : ICfg) (s : Nat)
    (hmark : c.retryMark = true) (hs : s ∈ o.retryOnStatusCodes) :
    stepE o st (Event.fail c (some s)) = (st, [Effect.rejectedNow c.id])
    ∧ (∀ (st2 : IState) (c3 : ICfg) (s3 : Option Nat) (c4 : ICfg),
        c4 ∈ (stepE o st2 (Event.fail c3 s3)).1.failedQueue →
        c4 ∈ st2.failedQueue ∨ c4.retryMark = true) := by
  constructor
  · have hsr : shouldRetry o c (some s) = false := by
      simp [shouldRetry, hmark]
    simp [stepE, hsr]
  · intro st2 c3 s3 c4 hmem
    by_cases h1 : (shouldRetry o c3 s3 && o.hasRefreshToken) = true
    · by_cases h2 : st2.isRefreshing = true
      · simp [stepE, h1, h2] at hmem
        rcases hmem with hm | hm
        · exact Or.inl hm
        · exact Or.inr (by simp [hm])
      · simp only [Bool.not_eq_true] at h2
        simp [stepE, h1, h2] at hmem
        rcases hmem with hm | hm
        · exact Or.inl hm
        · exact Or.inr (by simp [hm])
    · simp [stepE, h1] at hmem
      exact Or.inl hmem

theorem retry_once_witness :
    stepE ⟨[401], true, true⟩ ⟨false, [], 0⟩
        (Event.fail ⟨5, true⟩ (some 401))
      = (⟨false, [], 0⟩, [Effect.rejectedNow 5]) :=
  (retry_once ⟨[401], true, true⟩ ⟨false, [], 0⟩ ⟨5, true⟩ 401 rfl
    (by decide)).1

/-- C10: with no refreshToken handler configured, every failing response —
including one whose status is in retryOnStatusCodes — is rejected
immediately: the interceptor state is unchanged and the only effect is the
rejection, so nothing is queued, no token is read or written by the error
path, and logout is never called. -/
theorem no_refresh_handler_rejects (o : IOpts) (st : IState) (c : ICfg)
    (status : Option Nat) (hnr : o.hasRefreshToken = false) :
    stepE o st (Event.fail c status) = (st, [Effect.rejectedNow c.id]) := by
  simp [stepE, hnr]

theorem no_refresh_handler_rejects_witness :
    stepE ⟨[401], false, false⟩ ⟨false, [], 0⟩
        (Event.fail ⟨3, false⟩ (some 401))
      = (⟨false, [], 0⟩, [Effect.rejectedNow 3]) :=
  no_refresh_handler_rejects ⟨[401], false, false⟩ ⟨false, [], 0⟩
    ⟨3, false⟩ (some 401) rfl

end Servios
